import Mathlib

/-!
Capsense: the sampling-and-mapping superloop of `src/main.cpp`

A shallow embedding of `loop()` of the ESP32 capacitive stretch-sensor
firmware.  The superloop (`while (1)`, lines 95-138) is one function
`iteration` on an explicit state; the hardware collaborators (`millis`,
`touch_pad_read_filtered`, `dac_output_voltage`) are inputs of each
iteration and their calls are recorded as events.

Machine integers: every C integer value is an `Int`, and every store into a
fixed-width object goes through an explicit wrap (`toU16`, `toU8`, `toLong`,
`toULong`), so a `uint16_t` holds a value in `[0, 65536)` and so on.  On the
ESP32 `int` and `long` are both 32 bits wide.
-/

namespace Capsense

/-! ## Constants (lines 40-42) -/

/-- Line 40: `#define MAX_CAP_VAL 1500`. -/
def MAX_CAP_VAL : Int := 1500

/-- Line 41: `#define MIN_CAP_VAL 1200`. -/
def MIN_CAP_VAL : Int := 1200

/-- Line 42: `#define DelayTimeMS 90`. -/
def DelayTimeMS : Int := 90

/-! ## Fixed-width conversions -/

/-- Store of an integer value into a `uint16_t`. -/
def toU16 (x : Int) : Int := x % 65536

/-- Store of an integer value into a `uint8_t` (argument of `dac_output_voltage`). -/
def toU8 (x : Int) : Int := x % 256

/-- Store of an integer value into a 32-bit signed `long`; an out-of-range
value wraps (two-complement representation). -/
def toLong (x : Int) : Int := (x + 2147483648) % 4294967296 - 2147483648

/-- Conversion of an integer value to a 32-bit `unsigned long`. -/
def toULong (x : Int) : Int := x % 4294967296

/-! ## The rescale helper -/

/-- Modelled from the spec: `map` is the library function of the Arduino core,
`long map(long x, long in_min, long in_max, long out_min, long out_max)`; its
body is not among the sources of the repository.  Section 4.1 step 2c asks for an
integer linear interpolation from `[0, MaxCap - MinCap]` to `[0, 255]` with
floor semantics; this is the documented Arduino formula
`(x - in_min) * (out_max - out_min) / (in_max - in_min) + out_min`
in `long` arithmetic with the truncating division of C, as shipped by the
framework version named in the header of `main.cpp` (which returns `-1` for
an empty input range). -/
def map (x in_min in_max out_min out_max : Int) : Int :=
  let run := toLong (in_max - in_min)
  if run = 0 then -1
  else
    let rise := toLong (out_max - out_min)
    let delta := toLong (x - in_min)
    toLong (toLong (Int.tdiv (toLong (delta * rise)) run) + out_min)

/-! ## Arithmetic of the data-ready block (lines 113-126) -/

/-- Lines 114-122: sanitize the read data. -/
def clampCap (v : Int) : Int :=
  if v > MAX_CAP_VAL then MAX_CAP_VAL
  else if v < MIN_CAP_VAL then MIN_CAP_VAL
  else v

/-- The `int` value of `MAX_CAP_VAL - ReadVal[0]` on line 125, before it is
stored back. -/
def flipInt (v : Int) : Int := MAX_CAP_VAL - v

/-- Line 125: `ReadVal[0] = MAX_CAP_VAL - ReadVal[0];`. -/
def flipCap (v : Int) : Int := toU16 (flipInt v)

/-- The `long` value returned by `map` on line 126, before it is stored back. -/
def remapLong (v : Int) : Int := map v 0 (MAX_CAP_VAL - MIN_CAP_VAL) 0 255

/-- Line 126: `ReadVal[0] = map(ReadVal[0], 0, (MAX_CAP_VAL-MIN_CAP_VAL), 0, 255);`. -/
def remapCap (v : Int) : Int := toU16 (remapLong v)

/-- Lines 114-126: the value left in `ReadVal[0]` (a `uint16_t`) by the
data-ready block when it starts with the raw sample `r` in `ReadVal[0]`. -/
def transform (r : Int) : Int := remapCap (flipCap (clampCap r))

/-! ## The superloop as a state machine -/

/-- Local variables of `loop()` that live across superloop iterations
(lines 71-73). -/
structure LoopState where
  /-- Element `ReadVal[0]`: "holds the actual capacitive value". -/
  ReadVal0 : Int
  /-- Element `ReadVal[1]`: "the previous value". -/
  ReadVal1 : Int
  /-- Variable `DataRDY`: "DataReady signal to start data manipulation". -/
  DataRDY : Int
  /-- Variable `TempTime`: "contains the time for the updaterate". -/
  TempTime : Int
deriving DecidableEq, Repr

/-- What the collaborators answer during one superloop iteration. -/
structure Tick where
  /-- Value returned by `millis()` on line 96. -/
  millis : Int
  /-- Outcome of `touch_pad_read_filtered` on line 97, if it is called:
  `some v` is `ESP_OK` with `v` stored through the pointer, `none` is a
  non-success status (the driver stores nothing). -/
  readFiltered : Option Int
  /-- Whether `dac_output_voltage` on line 132, if it is called, returns `ESP_OK`. -/
  dacOk : Bool
deriving DecidableEq, Repr

/-- Observable actions of one superloop iteration, in program order. -/
inductive Event where
  /-- Call of `touch_pad_read_filtered` (line 97) and whether it succeeded. -/
  | touchRead (ok : Bool)
  /-- Line 99: "Read filtered value error". -/
  | printReadError
  /-- Line 105: the raw value is printed. -/
  | printRaw (v : Int)
  /-- Line 129: the converted value is printed. -/
  | printConverted (v : Int)
  /-- Line 132: `dac_output_voltage(DAC_CHANNEL_1, v)`, `v` the `uint8_t` argument. -/
  | dacWrite (v : Int)
  /-- Lines 133-134: the DAC error diagnostic with the attempted value. -/
  | printDacError (v : Int)
deriving DecidableEq, Repr

/-- State at the `while (1)` when `millis()` returned `t0` on line 73. -/
def initState (t0 : Int) : LoopState :=
  { ReadVal0 := 0, ReadVal1 := 0, DataRDY := 0, TempTime := toLong t0 }

/-- Line 96: `TempTime+DelayTimeMS <= (millis())`.  The sum is a `long` (an
overflowing sum is taken to wrap); the comparison with the `unsigned long`
result of `millis()` is unsigned. -/
def timeElapsed (s : LoopState) (now : Int) : Bool :=
  decide (toULong (toLong (s.TempTime + DelayTimeMS)) ≤ toULong now)

/-- Lines 96-109: the sampling block. -/
def sampleBlock (s : LoopState) (t : Tick) : LoopState × List Event :=
  if timeElapsed s t.millis then
    match t.readFiltered with
    | none =>
        ({ s with ReadVal1 := s.ReadVal0 },
          [Event.touchRead false, Event.printReadError])
    | some v =>
        let r := toU16 v
        if r = s.ReadVal1 then
          ({ s with ReadVal0 := r, ReadVal1 := r, DataRDY := 0 },
            [Event.touchRead true])
        else
          ({ s with ReadVal0 := r, ReadVal1 := r, DataRDY := 1 },
            [Event.touchRead true, Event.printRaw r])
  else (s, [])

/-- Lines 112-137: the data-ready block. -/
def outputBlock (s : LoopState) (dacOk : Bool) : LoopState × List Event :=
  if s.DataRDY ≠ 0 then
    let v := transform s.ReadVal0
    ({ s with ReadVal0 := v, DataRDY := 0 },
      [Event.printConverted v, Event.dacWrite (toU8 v)]
        ++ (if dacOk then [] else [Event.printDacError v]))
  else (s, [])

/-- One pass through the body of `while (1)` (lines 96-137). -/
def iteration (s : LoopState) (t : Tick) : LoopState × List Event :=
  let a := sampleBlock s t
  let b := outputBlock a.1 t.dacOk
  (b.1, a.2 ++ b.2)

/-- Consecutive superloop iterations: the state after them and the events of
each iteration. -/
def runLoop : LoopState → List Tick → LoopState × List (List Event)
  | s, [] => (s, [])
  | s, t :: ts =>
      let a := iteration s t
      let b := runLoop a.1 ts
      (b.1, a.2 :: b.2)

/-- The values handed to `dac_output_voltage` among the events. -/
def dacWrites : List Event → List Int
  | [] => []
  | Event.dacWrite v :: es => v :: dacWrites es
  | _ :: es => dacWrites es

/-- Whether `touch_pad_read_filtered` was called among the events. -/
def didRead : List Event → Bool
  | [] => false
  | Event.touchRead _ :: _ => true
  | _ :: es => didRead es

/-- The same iteration input with the answer of `dac_output_voltage` fixed to `ok`. -/
def withDac (t : Tick) (ok : Bool) : Tick :=
  { millis := t.millis, readFiltered := t.readFiltered, dacOk := ok }

/-! ## Arithmetic of the transform -/

theorem toLong_of_small (x : Int) (h0 : -2147483648 ≤ x) (h1 : x < 2147483648) :
    toLong x = x := by
  unfold toLong; omega

theorem toU16_of_range (r : Int) (h0 : 0 ≤ r) (h1 : r < 65536) : toU16 r = r := by
  unfold toU16; omega

theorem clampCap_bounds (r : Int) : 1200 ≤ clampCap r ∧ clampCap r ≤ 1500 := by
  unfold clampCap MAX_CAP_VAL MIN_CAP_VAL
  split_ifs <;> omega

theorem flipCap_eq (v : Int) (h : v ≤ 1500) (h0 : 0 ≤ v) : flipCap v = 1500 - v := by
  unfold flipCap flipInt toU16 MAX_CAP_VAL; omega

theorem remapLong_eq (v : Int) (h0 : 0 ≤ v) (h : v ≤ 65535) :
    remapLong v = v * 255 / 300 := by
  unfold remapLong map MAX_CAP_VAL MIN_CAP_VAL
  have h1 : toLong (1500 - 1200 - 0) = 300 := by decide
  have h2 : toLong (255 - 0) = 255 := by decide
  have h3 : toLong (v - 0) = v := by rw [toLong_of_small] <;> omega
  have h4 : toLong (v * 255) = v * 255 := by rw [toLong_of_small] <;> omega
  have h5 : toLong (v * 255 / 300) = v * 255 / 300 := by
    rw [toLong_of_small] <;> omega
  have h6 : toLong (v * 255 / 300 + 0) = v * 255 / 300 := by
    rw [toLong_of_small] <;> omega
  have h7 : Int.tdiv (v * 255) 300 = v * 255 / 300 :=
    Int.tdiv_eq_ediv (by omega) (by omega)
  simp only [h1, h2, h3, h4, h7, h5, h6]
  norm_num

theorem remapCap_eq (v : Int) (h0 : 0 ≤ v) (h : v ≤ 65535) : remapCap v = v * 255 / 300 := by
  unfold remapCap toU16
  rw [remapLong_eq v h0 h]; omega

theorem transform_eq (r : Int) : transform r = (1500 - clampCap r) * 255 / 300 := by
  have hb := clampCap_bounds r
  unfold transform
  rw [flipCap_eq _ hb.2 (by omega), remapCap_eq _ (by omega) (by omega)]

theorem transform_bounds (r : Int) : 0 ≤ transform r ∧ transform r ≤ 255 := by
  have hb := clampCap_bounds r
  rw [transform_eq]
  omega

theorem toU8_transform (r : Int) : toU8 (transform r) = transform r := by
  have h := transform_bounds r
  unfold toU8; omega

/-! ## Invariants of the superloop -/

theorem outputBlock_idle (s : LoopState) (ok : Bool) (h : s.DataRDY = 0) :
    outputBlock s ok = (s, []) := by
  simp only [outputBlock, h, ne_eq, not_true_eq_false, if_false]

theorem outputBlock_ready (s : LoopState) (ok : Bool) (h : s.DataRDY ≠ 0) :
    outputBlock s ok =
      ({ s with ReadVal0 := transform s.ReadVal0, DataRDY := 0 },
        [Event.printConverted (transform s.ReadVal0),
          Event.dacWrite (toU8 (transform s.ReadVal0))]
          ++ (if ok then [] else [Event.printDacError (transform s.ReadVal0)])) := by
  simp only [outputBlock, h, ne_eq, not_false_eq_true, if_true]

theorem outputBlock_DataRDY (s : LoopState) (ok : Bool) : (outputBlock s ok).1.DataRDY = 0 := by
  by_cases h : s.DataRDY = 0
  · rw [outputBlock_idle s ok h]; exact h
  · rw [outputBlock_ready s ok h]

theorem outputBlock_TempTime (s : LoopState) (ok : Bool) :
    (outputBlock s ok).1.TempTime = s.TempTime := by
  by_cases h : s.DataRDY = 0
  · rw [outputBlock_idle s ok h]
  · rw [outputBlock_ready s ok h]

theorem sampleBlock_closed (s : LoopState) (t : Tick) (hg : timeElapsed s t.millis = false) :
    sampleBlock s t = (s, []) := by
  simp only [sampleBlock, hg, Bool.false_eq_true, if_false]

theorem sampleBlock_fail (s : LoopState) (t : Tick) (hg : timeElapsed s t.millis = true)
    (hr : t.readFiltered = none) :
    sampleBlock s t =
      ({ s with ReadVal1 := s.ReadVal0 }, [Event.touchRead false, Event.printReadError]) := by
  simp only [sampleBlock, hg, hr, if_true]

theorem sampleBlock_same (s : LoopState) (t : Tick) (v : Int)
    (hg : timeElapsed s t.millis = true) (hr : t.readFiltered = some v)
    (he : toU16 v = s.ReadVal1) :
    sampleBlock s t =
      ({ s with ReadVal0 := toU16 v, ReadVal1 := toU16 v, DataRDY := 0 },
        [Event.touchRead true]) := by
  simp only [sampleBlock, hg, hr, he, if_true]

theorem sampleBlock_changed (s : LoopState) (t : Tick) (v : Int)
    (hg : timeElapsed s t.millis = true) (hr : t.readFiltered = some v)
    (he : toU16 v ≠ s.ReadVal1) :
    sampleBlock s t =
      ({ s with ReadVal0 := toU16 v, ReadVal1 := toU16 v, DataRDY := 1 },
        [Event.touchRead true, Event.printRaw (toU16 v)]) := by
  simp only [sampleBlock, hg, hr, he, if_true, if_false]

/-- The sampling block, by cases on the gate and the answer of the driver. -/
theorem sampleBlock_cases (s : LoopState) (t : Tick) :
    sampleBlock s t = (s, []) ∨
    sampleBlock s t =
      ({ s with ReadVal1 := s.ReadVal0 }, [Event.touchRead false, Event.printReadError]) ∨
    (∃ v, sampleBlock s t =
      ({ s with ReadVal0 := toU16 v, ReadVal1 := toU16 v, DataRDY := 0 },
        [Event.touchRead true])) ∨
    (∃ v, sampleBlock s t =
      ({ s with ReadVal0 := toU16 v, ReadVal1 := toU16 v, DataRDY := 1 },
        [Event.touchRead true, Event.printRaw (toU16 v)])) := by
  cases hg : timeElapsed s t.millis with
  | false => exact Or.inl (sampleBlock_closed s t hg)
  | true =>
      cases hr : t.readFiltered with
      | none => exact Or.inr (Or.inl (sampleBlock_fail s t hg hr))
      | some v =>
          by_cases he : toU16 v = s.ReadVal1
          · exact Or.inr (Or.inr (Or.inl ⟨v, sampleBlock_same s t v hg hr he⟩))
          · exact Or.inr (Or.inr (Or.inr ⟨v, sampleBlock_changed s t v hg hr he⟩))

theorem sampleBlock_TempTime (s : LoopState) (t : Tick) :
    (sampleBlock s t).1.TempTime = s.TempTime := by
  rcases sampleBlock_cases s t with h | h | ⟨v, h⟩ | ⟨v, h⟩ <;> rw [h]

theorem iteration_eq (s : LoopState) (t : Tick) :
    iteration s t =
      ((outputBlock (sampleBlock s t).1 t.dacOk).1,
        (sampleBlock s t).2 ++ (outputBlock (sampleBlock s t).1 t.dacOk).2) := by
  simp only [iteration]

theorem iteration_DataRDY (s : LoopState) (t : Tick) : (iteration s t).1.DataRDY = 0 := by
  rw [iteration_eq]
  exact outputBlock_DataRDY _ _

theorem iteration_TempTime (s : LoopState) (t : Tick) :
    (iteration s t).1.TempTime = s.TempTime := by
  rw [iteration_eq]
  exact (outputBlock_TempTime _ _).trans (sampleBlock_TempTime s t)

theorem runLoop_nil (s : LoopState) : runLoop s [] = (s, []) := by
  simp only [runLoop]

theorem runLoop_cons (s : LoopState) (t : Tick) (ts : List Tick) :
    runLoop s (t :: ts) =
      ((runLoop (iteration s t).1 ts).1, (iteration s t).2 :: (runLoop (iteration s t).1 ts).2) := by
  simp only [runLoop]

theorem runLoop_DataRDY (ts : List Tick) (s : LoopState) (h : s.DataRDY = 0) :
    (runLoop s ts).1.DataRDY = 0 := by
  induction ts generalizing s with
  | nil => rw [runLoop_nil]; exact h
  | cons t ts ih =>
      rw [runLoop_cons]
      exact ih _ (iteration_DataRDY s t)

theorem runLoop_TempTime (ts : List Tick) (s : LoopState) :
    (runLoop s ts).1.TempTime = s.TempTime := by
  induction ts generalizing s with
  | nil => rw [runLoop_nil]
  | cons t ts ih =>
      rw [runLoop_cons]
      exact (ih _).trans (iteration_TempTime s t)

/-- The gate of line 96 only looks at `TempTime`. -/
theorem timeElapsed_congr (s s2 : LoopState) (now : Int) (h : s2.TempTime = s.TempTime) :
    timeElapsed s2 now = timeElapsed s now := by
  unfold timeElapsed
  rw [h]

/-- An iteration whose gate is closed and that starts with `DataRDY = 0` does nothing. -/
theorem iteration_idle (s : LoopState) (t : Tick) (hd : s.DataRDY = 0)
    (hg : timeElapsed s t.millis = false) : iteration s t = (s, []) := by
  rw [iteration_eq, sampleBlock_closed s t hg, outputBlock_idle s t.dacOk hd]
  simp only [List.append_nil]

/-- A sampling iteration whose read fails, started with `DataRDY = 0`. -/
theorem iteration_fail (s : LoopState) (t : Tick) (hd : s.DataRDY = 0)
    (hg : timeElapsed s t.millis = true) (hr : t.readFiltered = none) :
    iteration s t =
      ({ s with ReadVal1 := s.ReadVal0 }, [Event.touchRead false, Event.printReadError]) := by
  rw [iteration_eq, sampleBlock_fail s t hg hr,
    outputBlock_idle { s with ReadVal1 := s.ReadVal0 } t.dacOk hd]
  simp only [List.append_nil]

/-- A sampling iteration whose read succeeds with the value already in `ReadVal[1]`. -/
theorem iteration_same (s : LoopState) (t : Tick) (v : Int)
    (hg : timeElapsed s t.millis = true) (hr : t.readFiltered = some v)
    (he : toU16 v = s.ReadVal1) :
    iteration s t =
      ({ s with ReadVal0 := toU16 v, ReadVal1 := toU16 v, DataRDY := 0 },
        [Event.touchRead true]) := by
  rw [iteration_eq, sampleBlock_same s t v hg hr he, outputBlock_idle _ t.dacOk rfl]
  simp only [List.append_nil]

/-- A sampling iteration whose read succeeds with a value other than `ReadVal[1]`. -/
theorem iteration_changed (s : LoopState) (t : Tick) (v : Int)
    (hg : timeElapsed s t.millis = true) (hr : t.readFiltered = some v)
    (he : toU16 v ≠ s.ReadVal1) :
    iteration s t =
      ({ s with ReadVal0 := transform (toU16 v), ReadVal1 := toU16 v, DataRDY := 0 },
        [Event.touchRead true, Event.printRaw (toU16 v),
          Event.printConverted (transform (toU16 v)),
          Event.dacWrite (toU8 (transform (toU16 v)))]
          ++ (if t.dacOk then [] else [Event.printDacError (transform (toU16 v))])) := by
  rw [iteration_eq, sampleBlock_changed s t v hg hr he,
    outputBlock_ready _ t.dacOk (by simp only [ne_eq, one_ne_zero, not_false_eq_true])]
  simp only [List.cons_append, List.nil_append]

theorem runLoop_idle (ts : List Tick) (s : LoopState) (hd : s.DataRDY = 0)
    (hg : ∀ m ∈ ts, timeElapsed s m.millis = false) : (runLoop s ts).1 = s := by
  induction ts with
  | nil => rw [runLoop_nil]
  | cons t ts ih =>
      rw [runLoop_cons, iteration_idle s t hd (hg t (List.mem_cons_self t ts))]
      exact ih (fun m hm => hg m (List.mem_cons_of_mem t hm))

theorem dacWrites_tail (ok : Bool) (w : Int) :
    dacWrites (if ok then [] else [Event.printDacError w]) = [] := by
  cases ok <;> rfl

theorem dacWrites_changed (r : Int) (ok : Bool) :
    dacWrites ([Event.touchRead true, Event.printRaw r, Event.printConverted (transform r),
      Event.dacWrite (toU8 (transform r))]
        ++ (if ok then [] else [Event.printDacError (transform r)])) = [toU8 (transform r)] := by
  cases ok <;> rfl

/-- States the superloop can be in at the top of an iteration have `DataRDY = 0`. -/
theorem reach_DataRDY (t0 : Int) (pre : List Tick) :
    (runLoop (initState t0) pre).1.DataRDY = 0 :=
  runLoop_DataRDY pre (initState t0) rfl

/-- The events of any iteration started with `DataRDY = 0`, by cases. -/
theorem iteration_events (s : LoopState) (t : Tick) (hd : s.DataRDY = 0) :
    (iteration s t).2 = [] ∨
    (t.readFiltered = none ∧
      (iteration s t).2 = [Event.touchRead false, Event.printReadError]) ∨
    (∃ v, t.readFiltered = some v ∧ (iteration s t).2 = [Event.touchRead true]) ∨
    (∃ v, t.readFiltered = some v ∧
      (iteration s t).2 =
        [Event.touchRead true, Event.printRaw (toU16 v),
          Event.printConverted (transform (toU16 v)),
          Event.dacWrite (toU8 (transform (toU16 v)))]
          ++ (if t.dacOk then [] else [Event.printDacError (transform (toU16 v))])) := by
  cases hg : timeElapsed s t.millis with
  | false => left; rw [iteration_idle s t hd hg]
  | true =>
      cases hr : t.readFiltered with
      | none => right; left; exact ⟨rfl, by rw [iteration_fail s t hd hg hr]⟩
      | some v =>
          by_cases he : toU16 v = s.ReadVal1
          · right; right; left
            exact ⟨v, rfl, by rw [iteration_same s t v hg hr he]⟩
          · right; right; right
            exact ⟨v, rfl, by rw [iteration_changed s t v hg hr he]⟩

/-! ## The transform (lines 113-126) -/

/-- C1: the clamp ends of the transform.  For every raw sample `r` (every
integer, so in particular every 16-bit unsigned one): if `r >= 1500` the
data-ready block computes 0 and if `r <= 1200` it computes 255; in particular
`transform 1500 = 0`, `transform 1200 = 255` and `transform 1600 = 0`. -/
theorem transform_clamp_ends (r : Int) :
    (1500 ≤ r → transform r = 0) ∧ (r ≤ 1200 → transform r = 255) ∧
      transform 1500 = 0 ∧ transform 1200 = 255 ∧ transform 1600 = 0 := by
  refine ⟨fun h => ?_, fun h => ?_, by decide, by decide, by decide⟩
  · rw [transform_eq]
    unfold clampCap MAX_CAP_VAL MIN_CAP_VAL
    split_ifs <;> omega
  · rw [transform_eq]
    unfold clampCap MAX_CAP_VAL MIN_CAP_VAL
    split_ifs <;> omega

theorem transform_clamp_ends_witness :
    ((1500 : Int) ≤ 40000 ∧ transform 40000 = 0) ∧ ((7 : Int) ≤ 1200 ∧ transform 7 = 255) :=
  ⟨⟨by decide, (transform_clamp_ends 40000).1 (by decide)⟩,
    ⟨by decide, (transform_clamp_ends 7).2.1 (by decide)⟩⟩

/-- C2: the value handed to `dac_output_voltage` is in `[0, 255]` and nothing
is lost on the way.  For every raw sample `r`: the `int` difference
`MAX_CAP_VAL - clamped r` lies in `[0, 300]` and is what the `uint16_t` store
of line 125 keeps (no wrap); the `long` returned by `map` lies in `[0, 255]`
and is what the `uint16_t` store of line 126 keeps; narrowing that to the
`uint8_t` parameter changes nothing.  In the superloop, every value written
to the DAC in any iteration of any run is in `[0, 255]` and equals the
untruncated `transform` of the raw sample read in that iteration. -/
theorem dac_argument_in_range :
    (∀ r : Int,
      (0 ≤ flipInt (clampCap r) ∧ flipInt (clampCap r) ≤ 300) ∧
      flipCap (clampCap r) = flipInt (clampCap r) ∧
      (0 ≤ remapLong (flipCap (clampCap r)) ∧ remapLong (flipCap (clampCap r)) ≤ 255) ∧
      transform r = remapLong (flipCap (clampCap r)) ∧
      (0 ≤ transform r ∧ transform r ≤ 255) ∧
      toU8 (transform r) = transform r) ∧
    (∀ (t0 : Int) (pre : List Tick) (t : Tick),
      ∀ v ∈ dacWrites (iteration (runLoop (initState t0) pre).1 t).2,
        (0 ≤ v ∧ v ≤ 255) ∧
          ∃ raw, t.readFiltered = some raw ∧ v = transform (toU16 raw)) := by
  constructor
  · intro r
    have hb := clampCap_bounds r
    have hf : flipInt (clampCap r) = 1500 - clampCap r := by
      unfold flipInt MAX_CAP_VAL; rfl
    have hc : flipCap (clampCap r) = 1500 - clampCap r := flipCap_eq _ hb.2 (by omega)
    have hm : remapLong (1500 - clampCap r) = (1500 - clampCap r) * 255 / 300 :=
      remapLong_eq _ (by omega) (by omega)
    have ht := transform_eq r
    refine ⟨?_, ?_, ?_, ?_, transform_bounds r, toU8_transform r⟩
    · rw [hf]; omega
    · rw [hf, hc]
    · rw [hc, hm]; omega
    · rw [hc, hm, ht]
  · intro t0 pre t v hv
    rcases iteration_events _ t (reach_DataRDY t0 pre) with h | ⟨_, h⟩ | ⟨_, _, h⟩ | ⟨raw, hr, h⟩
    · rw [h] at hv; simp [dacWrites] at hv
    · rw [h] at hv; simp [dacWrites] at hv
    · rw [h] at hv; simp [dacWrites] at hv
    · rw [h, dacWrites_changed] at hv
      have hw : v = toU8 (transform (toU16 raw)) := by simpa using hv
      rw [toU8_transform] at hw
      subst hw
      exact ⟨transform_bounds _, raw, hr, rfl⟩

/-- C3: `transform` is monotonically non-increasing: for all raw samples
`r1 <= r2` (every pair of integers, so in particular every pair of 16-bit
unsigned samples and every pair inside `[1200, 1500]`),
`transform r1 >= transform r2`. -/
theorem transform_antitone (r1 r2 : Int) (h : r1 ≤ r2) : transform r2 ≤ transform r1 := by
  have hc : clampCap r1 ≤ clampCap r2 := by
    unfold clampCap MAX_CAP_VAL MIN_CAP_VAL
    split_ifs <;> omega
  have h1 := clampCap_bounds r1
  have h2 := clampCap_bounds r2
  rw [transform_eq, transform_eq]
  omega

theorem transform_antitone_witness :
    (1300 : Int) ≤ 1400 ∧ transform 1400 ≤ transform 1300 :=
  ⟨by decide, transform_antitone 1300 1400 (by decide)⟩

/-- C4: the rescale step has floor semantics.  For every raw sample `r` with
`1200 <= r <= 1500` the value written to the DAC is `map (1500 - r)`, which is
the floor of `(1500 - r) * 255 / 300`: the greatest integer `q` with
`300 * q <= (1500 - r) * 255`.  The midpoint `r = 1350` writes 127. -/
theorem rescale_floor (r : Int) (h1 : 1200 ≤ r) (h2 : r ≤ 1500) :
    toU8 (transform r) = remapLong (1500 - r) ∧
    toU8 (transform r) = (1500 - r) * 255 / 300 ∧
    300 * toU8 (transform r) ≤ (1500 - r) * 255 ∧
    (1500 - r) * 255 < 300 * (toU8 (transform r) + 1) ∧
    toU8 (transform 1350) = 127 := by
  have hc : clampCap r = r := by
    unfold clampCap MAX_CAP_VAL MIN_CAP_VAL
    split_ifs <;> omega
  have hm : remapLong (1500 - r) = (1500 - r) * 255 / 300 :=
    remapLong_eq _ (by omega) (by omega)
  have ht : toU8 (transform r) = (1500 - r) * 255 / 300 := by
    rw [toU8_transform, transform_eq, hc]
  refine ⟨by rw [ht, hm], ht, ?_, ?_, by decide⟩
  · rw [ht]; omega
  · rw [ht]; omega

theorem rescale_floor_witness :
    (1200 : Int) ≤ 1301 ∧ (1301 : Int) ≤ 1500 ∧ toU8 (transform 1301) = 169 :=
  ⟨by decide, by decide, (rescale_floor 1301 (by decide) (by decide)).2.1⟩

/-! ## The superloop (lines 95-138) -/

theorem dacWrites_append (xs ys : List Event) :
    dacWrites (xs ++ ys) = dacWrites xs ++ dacWrites ys := by
  induction xs with
  | nil => rfl
  | cons e es ih =>
      cases e <;> simp only [List.cons_append, dacWrites, List.append_eq, ih]

theorem sampleBlock_no_write (s : LoopState) (t : Tick) : dacWrites (sampleBlock s t).2 = [] := by
  rcases sampleBlock_cases s t with h | h | ⟨v, h⟩ | ⟨v, h⟩ <;> rw [h] <;> rfl

/-- The gate of an iteration in a run is the gate of the state at loop entry:
`TempTime` is never assigned inside the superloop. -/
theorem gate_fixed (t0 : Int) (pre : List Tick) (now : Int) :
    timeElapsed (runLoop (initState t0) pre).1 now = timeElapsed (initState t0) now :=
  timeElapsed_congr _ _ now (runLoop_TempTime pre (initState t0))

theorem runLoop_append (xs ys : List Tick) (s : LoopState) :
    (runLoop s (xs ++ ys)).1 = (runLoop (runLoop s xs).1 ys).1 := by
  induction xs generalizing s with
  | nil => rw [runLoop_nil]; rfl
  | cons t ts ih =>
      rw [List.cons_append, runLoop_cons, runLoop_cons]
      exact ih _

/-- After a sampling iteration with a successful read of `r1` and any number
of iterations with the gate closed, `ReadVal[1]` holds `r1`. -/
theorem previous_after_success (s : LoopState) (a : Tick) (mids : List Tick) (r1 : Int)
    (ha : timeElapsed s a.millis = true) (har : a.readFiltered = some r1)
    (hm : ∀ m ∈ mids, timeElapsed s m.millis = false) :
    (runLoop s (a :: mids)).1.ReadVal1 = toU16 r1 ∧
      (runLoop s (a :: mids)).1.DataRDY = 0 ∧
      (runLoop s (a :: mids)).1.TempTime = s.TempTime := by
  rw [runLoop_cons]
  have hT := iteration_TempTime s a
  have hidle : (runLoop (iteration s a).1 mids).1 = (iteration s a).1 :=
    runLoop_idle mids _ (iteration_DataRDY s a)
      (fun m hmm => (timeElapsed_congr s _ m.millis hT).trans (hm m hmm))
  refine ⟨?_, ?_, ?_⟩
  · show (runLoop (iteration s a).1 mids).1.ReadVal1 = toU16 r1
    rw [hidle]
    by_cases he : toU16 r1 = s.ReadVal1
    · rw [iteration_same s a r1 ha har he]
    · rw [iteration_changed s a r1 ha har he]
  · show (runLoop (iteration s a).1 mids).1.DataRDY = 0
    rw [hidle]; exact iteration_DataRDY s a
  · show (runLoop (iteration s a).1 mids).1.TempTime = s.TempTime
    rw [hidle]; exact hT

/-- C5: change-gated emission.  In any run (loop entered at `t0`, any
iterations `pre`), take a sampling iteration `a` whose read succeeds with the
16-bit sample `r1`, then any iterations `mids` with the gate closed, then the
next sampling iteration `b` whose read succeeds with the 16-bit sample `r2`.
Then `ReadVal[1]` holds the raw `r1` when `b` starts; `b` calls
`dac_output_voltage` if and only if `r2` differs from `r1` (and then exactly
once, with `transform r2`); when `r2 = r1`, `b` only performs the read: no
print, no DAC write, and `ReadVal[0]` keeps the untransformed `r2`.  For the
very first sampling iteration (only closed-gate iterations `mids` before it)
the comparison is against the initial 0: a first sample `r2 = 0` gives no
write and no print.  The gate hypotheses are stated on the state at loop
entry; by `gate_fixed` that is the gate of every state of the run. -/
theorem change_gated_emission (t0 : Int) (pre : List Tick) (a : Tick) (mids : List Tick)
    (b : Tick) (r1 r2 : Int)
    (hr1 : 0 ≤ r1 ∧ r1 < 65536) (hr2 : 0 ≤ r2 ∧ r2 < 65536)
    (ha : timeElapsed (initState t0) a.millis = true) (har : a.readFiltered = some r1)
    (hm : ∀ m ∈ mids, timeElapsed (initState t0) m.millis = false)
    (hb : timeElapsed (initState t0) b.millis = true) (hbr : b.readFiltered = some r2) :
    (runLoop (initState t0) (pre ++ a :: mids)).1.ReadVal1 = r1 ∧
    ((∃ v, Event.dacWrite v ∈ (iteration (runLoop (initState t0) (pre ++ a :: mids)).1 b).2)
      ↔ r2 ≠ r1) ∧
    (r2 ≠ r1 →
      dacWrites (iteration (runLoop (initState t0) (pre ++ a :: mids)).1 b).2
        = [transform r2]) ∧
    (r2 = r1 →
      (iteration (runLoop (initState t0) (pre ++ a :: mids)).1 b).2 = [Event.touchRead true] ∧
      (iteration (runLoop (initState t0) (pre ++ a :: mids)).1 b).1.ReadVal0 = r2) ∧
    (r2 = 0 →
      (iteration (runLoop (initState t0) mids).1 b).2 = [Event.touchRead true]) := by
  have e1 : toU16 r1 = r1 := toU16_of_range r1 hr1.1 hr1.2
  have e2 : toU16 r2 = r2 := toU16_of_range r2 hr2.1 hr2.2
  -- the state in which `b` runs
  have hpre : ∀ now, timeElapsed (runLoop (initState t0) pre).1 now
      = timeElapsed (initState t0) now := gate_fixed t0 pre
  obtain ⟨hprev, _, hT⟩ := previous_after_success (runLoop (initState t0) pre).1 a mids r1
    ((hpre _).trans ha) har (fun m hmm => (hpre _).trans (hm m hmm))
  rw [← runLoop_append, e1] at hprev
  rw [← runLoop_append] at hT
  have hgb : timeElapsed (runLoop (initState t0) (pre ++ a :: mids)).1 b.millis = true :=
    (gate_fixed t0 (pre ++ a :: mids) b.millis).trans hb
  generalize (runLoop (initState t0) (pre ++ a :: mids)).1 = s at hprev hgb
  -- the first sampling iteration
  have hfirst : r2 = 0 →
      (iteration (runLoop (initState t0) mids).1 b).2 = [Event.touchRead true] := by
    intro h0
    have hidle : (runLoop (initState t0) mids).1 = initState t0 :=
      runLoop_idle mids (initState t0) rfl hm
    rw [hidle, iteration_same (initState t0) b r2 hb hbr (by rw [e2, h0]; rfl)]
  refine ⟨hprev, ?_, ?_, ?_, hfirst⟩
  · constructor
    · rintro ⟨v, hv⟩ heq
      rw [iteration_same s b r2 hgb hbr (by rw [e2, hprev, heq])] at hv
      simp at hv
    · intro hne
      rw [iteration_changed s b r2 hgb hbr (by rw [e2, hprev]; exact hne)]
      exact ⟨toU8 (transform (toU16 r2)), by simp⟩
  · intro hne
    rw [iteration_changed s b r2 hgb hbr (by rw [e2, hprev]; exact hne), dacWrites_changed,
      toU8_transform, e2]
  · intro heq
    rw [iteration_same s b r2 hgb hbr (by rw [e2, hprev, heq])]
    exact ⟨rfl, e2⟩

theorem change_gated_emission_witness :
    ((∃ v, Event.dacWrite v ∈
        (iteration (runLoop (initState 0)
          ([{ millis := 10, readFiltered := some 5, dacOk := true }]
            ++ { millis := 90, readFiltered := some 1300, dacOk := true }
              :: [{ millis := 4294967295 + 20, readFiltered := none, dacOk := true }])).1
          { millis := 180, readFiltered := some 1310, dacOk := false }).2)
      ↔ (1310 : Int) ≠ 1300) :=
  (change_gated_emission 0 [{ millis := 10, readFiltered := some 5, dacOk := true }]
    { millis := 90, readFiltered := some 1300, dacOk := true }
    [{ millis := 4294967295 + 20, readFiltered := none, dacOk := true }]
    { millis := 180, readFiltered := some 1310, dacOk := false } 1300 1310
    (by decide) (by decide) (by decide) rfl (by decide) (by decide) rfl).2.1

/-- C7: a failed read never produces an output write.  In every state the
superloop can reach (loop entered at `t0`, any iterations `pre`), `DataRDY` is
0 at the top of the iteration, and an iteration in which
`touch_pad_read_filtered` cannot succeed makes no call to
`dac_output_voltage`, performs no transform (`ReadVal[0]` is left as it was)
and its only actions are the failed read and its diagnostic. -/
theorem read_failure_no_write (t0 : Int) (pre : List Tick) (now : Int) (ok : Bool) :
    (runLoop (initState t0) pre).1.DataRDY = 0 ∧
    dacWrites (iteration (runLoop (initState t0) pre).1
      { millis := now, readFiltered := none, dacOk := ok }).2 = [] ∧
    (∀ e ∈ (iteration (runLoop (initState t0) pre).1
        { millis := now, readFiltered := none, dacOk := ok }).2,
      e = Event.touchRead false ∨ e = Event.printReadError) ∧
    (iteration (runLoop (initState t0) pre).1
      { millis := now, readFiltered := none, dacOk := ok }).1.ReadVal0
        = (runLoop (initState t0) pre).1.ReadVal0 := by
  have hd := reach_DataRDY t0 pre
  generalize (runLoop (initState t0) pre).1 = s at hd
  refine ⟨hd, ?_⟩
  cases hg : timeElapsed s now with
  | false =>
      rw [iteration_idle s { millis := now, readFiltered := none, dacOk := ok } hd hg]
      exact ⟨rfl, by simp, rfl⟩
  | true =>
      rw [iteration_fail s { millis := now, readFiltered := none, dacOk := ok } hd hg rfl]
      exact ⟨rfl, by simp, rfl⟩

theorem sampleBlock_withDac (s : LoopState) (t : Tick) (ok : Bool) :
    sampleBlock s (withDac t ok) = sampleBlock s t := by
  simp only [sampleBlock, withDac]

theorem iteration_withDac_ready (s : LoopState) (t : Tick) (ok : Bool)
    (hready : (sampleBlock s t).1.DataRDY ≠ 0) :
    iteration s (withDac t ok) =
      ({ (sampleBlock s t).1 with
          ReadVal0 := transform (sampleBlock s t).1.ReadVal0, DataRDY := 0 },
        (sampleBlock s t).2 ++
          ([Event.printConverted (transform (sampleBlock s t).1.ReadVal0),
            Event.dacWrite (toU8 (transform (sampleBlock s t).1.ReadVal0))]
            ++ (if ok then [] else
              [Event.printDacError (transform (sampleBlock s t).1.ReadVal0)]))) := by
  rw [iteration_eq, sampleBlock_withDac]
  have hok : (withDac t ok).dacOk = ok := rfl
  rw [hok, outputBlock_ready _ ok hready]

/-- C10: a write failure is non-fatal and leaves no trace in the loop state.
In every iteration in which data is ready (`DataRDY` is non-zero when line 112
is reached), whatever `dac_output_voltage` answers: it is called exactly once,
with the transformed value; the state after the iteration (`ReadVal[0]`,
`ReadVal[1]`, `DataRDY = 0`, `TempTime`) is the same for `ESP_OK` and for an
error; the events differ only by the trailing diagnostic with the attempted
value; and the run goes on identically through all later iterations. -/
theorem dac_failure_frame (s : LoopState) (t : Tick)
    (hready : (sampleBlock s t).1.DataRDY ≠ 0) :
    (∀ ok, dacWrites (iteration s (withDac t ok)).2
        = [toU8 (transform (sampleBlock s t).1.ReadVal0)]) ∧
    (iteration s (withDac t false)).1 = (iteration s (withDac t true)).1 ∧
    (iteration s (withDac t false)).1.DataRDY = 0 ∧
    (iteration s (withDac t false)).1.TempTime = s.TempTime ∧
    (iteration s (withDac t false)).2 = (iteration s (withDac t true)).2
        ++ [Event.printDacError (transform (sampleBlock s t).1.ReadVal0)] ∧
    (∀ rest, (runLoop s (withDac t false :: rest)).1 = (runLoop s (withDac t true :: rest)).1 ∧
      (runLoop s (withDac t false :: rest)).2.tail
        = (runLoop s (withDac t true :: rest)).2.tail) := by
  have hF := iteration_withDac_ready s t false hready
  have hT := iteration_withDac_ready s t true hready
  have hst : (iteration s (withDac t false)).1 = (iteration s (withDac t true)).1 := by
    rw [hF, hT]
  refine ⟨?_, hst, iteration_DataRDY _ _, iteration_TempTime _ _, ?_, ?_⟩
  · intro ok
    rw [iteration_withDac_ready s t ok hready, dacWrites_append, sampleBlock_no_write]
    cases ok <;> rfl
  · rw [hF, hT]
    simp only [Bool.false_eq_true, if_false, if_true, List.append_nil, List.append_assoc]
  · intro rest
    rw [runLoop_cons, runLoop_cons, hst]
    exact ⟨rfl, rfl⟩

theorem dac_failure_frame_witness :
    (sampleBlock (initState 0)
        { millis := 90, readFiltered := some 1300, dacOk := true }).1.DataRDY ≠ 0 ∧
      (iteration (initState 0)
        (withDac { millis := 90, readFiltered := some 1300, dacOk := true } false)).1 =
      (iteration (initState 0)
        (withDac { millis := 90, readFiltered := some 1300, dacOk := true } true)).1 :=
  ⟨by decide,
    (dac_failure_frame (initState 0) { millis := 90, readFiltered := some 1300, dacOk := true }
      (by decide)).2.1⟩

/-! ## Where the superloop departs from its documentation -/

/-- Every iteration of a run whose clock is at least 90 ms past loop entry
(no wrap-around) calls `touch_pad_read_filtered`: `TempTime` is never
re-armed. -/
theorem gate_stays_open (t0 : Int) (pre : List Tick) (t : Tick)
    (h0 : 0 ≤ t0) (h1 : t0 + 90 ≤ t.millis) (h2 : t.millis < 2147483648) :
    didRead (iteration (runLoop (initState t0) pre).1 t).2 = true := by
  have hg : timeElapsed (runLoop (initState t0) pre).1 t.millis = true := by
    rw [gate_fixed]
    unfold timeElapsed initState toULong toLong DelayTimeMS
    simp only [decide_eq_true_eq]
    omega
  have hd := reach_DataRDY t0 pre
  generalize (runLoop (initState t0) pre).1 = s at hg hd
  cases hr : t.readFiltered with
  | none => rw [iteration_fail s t hd hg hr]; rfl
  | some v =>
      by_cases he : toU16 v = s.ReadVal1
      · rw [iteration_same s t v hg hr he]; rfl
      · rw [iteration_changed s t v hg hr he]; rfl

/-- No iteration of a run calls `touch_pad_read_filtered` while the clock is
less than 90 ms past loop entry (no wrap-around). -/
theorem gate_closed_at_start (t0 : Int) (pre : List Tick) (t : Tick)
    (h0 : 0 ≤ t0) (h1 : t0 ≤ t.millis) (h2 : t.millis < t0 + 90)
    (h3 : t0 + 90 < 2147483648) :
    (iteration (runLoop (initState t0) pre).1 t).2 = [] := by
  have hg : timeElapsed (runLoop (initState t0) pre).1 t.millis = false := by
    rw [gate_fixed]
    unfold timeElapsed initState toULong toLong DelayTimeMS
    simp only [decide_eq_false_iff_not]
    omega
  rw [iteration_idle _ t (reach_DataRDY t0 pre) hg]

/-- C6 (the code departs from the claim): loop entered at `millis() = 0`;
three iterations see `millis()` = 90, 91 and 92 and read 1300, 1301, 1302.
All three call `touch_pad_read_filtered` and write the DAC, 1 ms apart. -/
theorem cadence_not_rearmed :
    (runLoop (initState 0)
      [{ millis := 90, readFiltered := some 1300, dacOk := true },
       { millis := 91, readFiltered := some 1301, dacOk := true },
       { millis := 92, readFiltered := some 1302, dacOk := true }]).2 =
    [[Event.touchRead true, Event.printRaw 1300, Event.printConverted 170, Event.dacWrite 170],
     [Event.touchRead true, Event.printRaw 1301, Event.printConverted 169, Event.dacWrite 169],
     [Event.touchRead true, Event.printRaw 1302, Event.printConverted 168, Event.dacWrite 168]] := by
  decide

/-- C8 (the code departs from the claim): loop entered at `millis() = 0`; the
iteration at 90 ms reads 1300 and leaves `ReadVal = [170, 1300]` (170 is the
transformed value); the iteration at 180 ms fails to read, and line 108 then
copies the 170 into `ReadVal[1]`: the previous raw sample 1300 is lost. -/
theorem failed_read_overwrites_previous :
    (runLoop (initState 0)
      [{ millis := 90, readFiltered := some 1300, dacOk := true }]).1
      = { ReadVal0 := 170, ReadVal1 := 1300, DataRDY := 0, TempTime := 0 } ∧
    (runLoop (initState 0)
      [{ millis := 90, readFiltered := some 1300, dacOk := true },
       { millis := 180, readFiltered := none, dacOk := true }]).1
      = { ReadVal0 := 170, ReadVal1 := 170, DataRDY := 0, TempTime := 0 } := by
  decide

/-- C9 (the code departs from the claim): loop entered at `millis() = 0`; the
iteration at 90 ms reads 1300 (DAC write 170), the one at 180 ms fails to
read, the one at 270 ms reads 170, which differs from the last successfully
read raw sample 1300, and yet performs no DAC write: the sample is compared
with the output value 170 left over in `ReadVal[0]`. -/
theorem recovery_write_missing :
    (runLoop (initState 0)
      [{ millis := 90, readFiltered := some 1300, dacOk := true },
       { millis := 180, readFiltered := none, dacOk := true },
       { millis := 270, readFiltered := some 170, dacOk := true }]).2 =
    [[Event.touchRead true, Event.printRaw 1300, Event.printConverted 170, Event.dacWrite 170],
     [Event.touchRead false, Event.printReadError],
     [Event.touchRead true]] := by
  decide

end Capsense
